import Mathlib

/-!
A shallow embedding of the `tauri-plugin-clipboard` source (`src/lib.rs`).

The plugin glues four external capabilities together:
* the `base64` crate's `STANDARD_NO_PAD` engine (encode / decode),
* the `image` crate (`ImageBuffer::from_raw`, `RgbaImage::save`,
  `image::load_from_memory`, `DynamicImage::pixels`),
* the `arboard` crate (`Clipboard::new`, `get_text`, `set_text`,
  `get_image`, `set_image`),
* the `clipboard_master` crate (`Master::run` driving a `ClipboardHandler`).

Pure algorithms (base64) are translated from their documented behaviour;
the compressed raster container and the OS clipboard are modelled from the
spec, since their code is not part of this repository.  The facade
functions `read_text`, `write_text`, `read_image`, `read_image_binary`,
`write_image` and the monitor callbacks `on_clipboard_change`,
`on_clipboard_error` are translated line by line from `src/lib.rs`.
-/

deriving instance DecidableEq for Except

namespace TauriClipboard

/-! ### Base64, standard alphabet, no padding

Model of the `base64` crate's `general_purpose::STANDARD_NO_PAD` engine:
encoding emits no `=` padding, decoding rejects `=` (padding mode
`RequireNone`), rejects lengths `≡ 1 (mod 4)` and rejects non-canonical
trailing bits. -/

/-- The standard base64 alphabet. -/
def b64Alphabet : List Char :=
  "ABCDEFGHIJKLMNOPQRSTUVWXYZabcdefghijklmnopqrstuvwxyz0123456789+/".data

/-- Sextet to alphabet character. -/
def b64Char (n : Nat) : Char := b64Alphabet.getD n 'A'

/-- Alphabet character back to sextet; `none` for a character outside the
alphabet (in particular for the padding character `=`). -/
def b64CharIndex (c : Char) : Option Nat :=
  b64Alphabet.findIdx? (fun x => x = c)

/-- Group the input bytes three at a time into 6-bit sextets, exactly as the
unpadded base64 encoder does. -/
def b64EncodeSextets : List Nat → List Nat
  | [] => []
  | [a] => [a / 4, a % 4 * 16]
  | [a, b] => [a / 4, a % 4 * 16 + b / 16, b % 16 * 4]
  | a :: b :: c :: rest =>
      a / 4 :: (a % 4 * 16 + b / 16) :: (b % 16 * 4 + c / 64) :: c % 64 ::
        b64EncodeSextets rest

/-- `STANDARD_NO_PAD.encode`: bytes to unpadded base64 text. -/
def b64Encode (bytes : List Nat) : String :=
  String.mk ((b64EncodeSextets bytes).map b64Char)

/-- Map every character to its sextet; fails on the first character outside
the alphabet. -/
def sextetsOfChars : List Char → Option (List Nat)
  | [] => some []
  | c :: rest =>
      match b64CharIndex c, sextetsOfChars rest with
      | some i, some l => some (i :: l)
      | _, _ => none

/-- Reassemble bytes from sextets, four at a time; a single trailing sextet
is an invalid length, and non-zero unused trailing bits are rejected
(the engine's canonical-check, `decode_allow_trailing_bits = false`). -/
def b64DecodeBytes : List Nat → Except String (List Nat)
  | [] => .ok []
  | [_] => .error "Invalid input length: 1"
  | [a, b] =>
      if b % 16 = 0 then .ok [a * 4 + b / 16] else .error "Invalid trailing bits"
  | [a, b, c] =>
      if c % 4 = 0 then .ok [a * 4 + b / 16, b % 16 * 16 + c / 4]
      else .error "Invalid trailing bits"
  | a :: b :: c :: d :: rest =>
      match b64DecodeBytes rest with
      | .ok l => .ok ((a * 4 + b / 16) :: (b % 16 * 16 + c / 4) :: (c % 4 * 64 + d) :: l)
      | .error e => .error e

/-- `STANDARD_NO_PAD.decode`: unpadded base64 text to bytes. -/
def b64Decode (s : String) : Except String (List Nat) :=
  match sextetsOfChars s.data with
  | none => .error "Invalid byte"
  | some sx => b64DecodeBytes sx

/-! ### The compressed raster container

Modelled from the spec: the repository serializes clipboard images through
the `image` crate's PNG codec, which is not part of this repository.  The
spec describes it as "a standard compressed raster format" that is a
"lossless raster container sufficient to round-trip RGBA exactly", whose
decoder accepts "a compressed raster image of any OS/readable format (not
restricted to the one produced by `encode`)" and "expands to RGBA regardless
of the source image's native channel layout (e.g., indexed, grayscale, RGB
must all be normalized to 4 channels)".  The model is a self-describing
container: magic bytes, a channel-layout tag, big-endian 32-bit width and
height, an optional palette, then the raw channel data. -/

/-- Channel layouts a readable raster image may carry. -/
inductive PixelFormat where
  | gray
  | grayA
  | rgb
  | rgba
  | indexed
deriving DecidableEq

/-- Channels per pixel stored in the data section. -/
def PixelFormat.channels : PixelFormat → Nat
  | .gray => 1
  | .grayA => 2
  | .rgb => 3
  | .rgba => 4
  | .indexed => 1

/-- Modelled from the spec: a decoded raster image before RGBA
normalization (the `image` crate's `DynamicImage`). -/
structure DynImage where
  width : Nat
  height : Nat
  format : PixelFormat
  palette : List (Nat × Nat × Nat)
  data : List Nat
deriving DecidableEq

/-- Palette requirements per channel layout: only indexed images carry a
palette, and every index must point into it. -/
def paletteOk : PixelFormat → List (Nat × Nat × Nat) → List Nat → Prop
  | PixelFormat.indexed, pal, data =>
      pal.length < 2 ^ 16 ∧ (∀ p ∈ pal, p.1 < 256 ∧ p.2.1 < 256 ∧ p.2.2 < 256) ∧
        ∀ i ∈ data, i < pal.length
  | _, pal, _ => pal = []

instance instDecidablePaletteOk :
    (fmt : PixelFormat) → (pal : List (Nat × Nat × Nat)) → (data : List Nat) →
      Decidable (paletteOk fmt pal data)
  | .gray, pal, _ => inferInstanceAs (Decidable (pal = []))
  | .grayA, pal, _ => inferInstanceAs (Decidable (pal = []))
  | .rgb, pal, _ => inferInstanceAs (Decidable (pal = []))
  | .rgba, pal, _ => inferInstanceAs (Decidable (pal = []))
  | .indexed, pal, data =>
      inferInstanceAs (Decidable (pal.length < 2 ^ 16 ∧
        (∀ p ∈ pal, p.1 < 256 ∧ p.2.1 < 256 ∧ p.2.2 < 256) ∧
          ∀ i ∈ data, i < pal.length))

/-- A well-formed raster image: 32-bit dimensions, data length matching the
declared dimensions and channel count, byte-sized samples, valid palette. -/
def DynImage.wf (d : DynImage) : Prop :=
  d.width < 2 ^ 32 ∧ d.height < 2 ^ 32 ∧
    d.data.length = d.width * d.height * d.format.channels ∧
    (∀ b ∈ d.data, b < 256) ∧ paletteOk d.format d.palette d.data

instance (d : DynImage) : Decidable d.wf :=
  inferInstanceAs (Decidable (d.width < 2 ^ 32 ∧ d.height < 2 ^ 32 ∧
    d.data.length = d.width * d.height * d.format.channels ∧
    (∀ b ∈ d.data, b < 256) ∧ paletteOk d.format d.palette d.data))

/-- Four big-endian bytes of a 32-bit number. -/
def natToBE4 (n : Nat) : List Nat :=
  [n / 2 ^ 24 % 256, n / 2 ^ 16 % 256, n / 2 ^ 8 % 256, n % 256]

/-- Recombine four big-endian bytes. -/
def beToNat4 (a b c d : Nat) : Nat :=
  a * 2 ^ 24 + b * 2 ^ 16 + c * 2 ^ 8 + d

/-- Container format tag per channel layout. -/
def formatTag : PixelFormat → Nat
  | .gray => 0
  | .grayA => 1
  | .rgb => 2
  | .rgba => 3
  | .indexed => 4

/-- Channel layout of a container tag. -/
def formatOfTag : Nat → Option PixelFormat
  | 0 => some .gray
  | 1 => some .grayA
  | 2 => some .rgb
  | 3 => some .rgba
  | 4 => some .indexed
  | _ => none

/-- Palette section: three bytes per entry. -/
def serializePalette : List (Nat × Nat × Nat) → List Nat
  | [] => []
  | (r, g, b) :: rest => r :: g :: b :: serializePalette rest

/-- Read `n` palette entries back; fails on a truncated palette. -/
def parsePalette : Nat → List Nat → Option (List (Nat × Nat × Nat) × List Nat)
  | 0, rest => some ([], rest)
  | n + 1, r :: g :: b :: rest =>
      match parsePalette n rest with
      | some (pal, rest2) => some ((r, g, b) :: pal, rest2)
      | none => none
  | _ + 1, _ => none

/-- Palette section of the container: a two-byte big-endian entry count
followed by the entries; empty for non-indexed layouts. -/
def palettePart (d : DynImage) : List Nat :=
  if d.format = PixelFormat.indexed then
    d.palette.length / 256 % 256 :: d.palette.length % 256 :: serializePalette d.palette
  else []

/-- Modelled from the spec: serializing a raster image to the lossless
container (the `image` crate's PNG encoder behind `RgbaImage::save`). -/
def serializeDyn (d : DynImage) : List Nat :=
  137 :: 80 :: 78 :: 71 :: 13 :: 10 :: 26 :: 10 :: formatTag d.format ::
    (natToBE4 d.width ++ (natToBE4 d.height ++ (palettePart d ++ d.data)))

/-- Header of the container: magic, tag, width, height, remaining bytes. -/
def parseHeader : List Nat → Option (Nat × Nat × Nat × List Nat)
  | 137 :: 80 :: 78 :: 71 :: 13 :: 10 :: 26 :: 10 :: tag ::
      w0 :: w1 :: w2 :: w3 :: h0 :: h1 :: h2 :: h3 :: rest =>
      some (tag, beToNat4 w0 w1 w2 w3, beToNat4 h0 h1 h2 h3, rest)
  | _ => none

/-- Body of the container after magic, tag, width and height: palette (for
indexed layouts) and channel data, checked against the declared sizes. -/
def loadWithFormat (fmt : PixelFormat) (w h : Nat) (rest : List Nat) :
    Except String DynImage :=
  match fmt with
  | PixelFormat.indexed =>
      match rest with
      | c0 :: c1 :: rest2 =>
          match parsePalette (c0 * 256 + c1) rest2 with
          | none => Except.error "corrupt image"
          | some (pal, data) =>
              if data.length = w * h ∧ ∀ i ∈ data, i < pal.length then
                Except.ok ⟨w, h, PixelFormat.indexed, pal, data⟩
              else Except.error "corrupt image"
      | _ => Except.error "corrupt image"
  | fmt2 =>
      if rest.length = w * h * fmt2.channels then
        Except.ok ⟨w, h, fmt2, [], rest⟩
      else Except.error "corrupt image"

/-- Modelled from the spec: `image::load_from_memory`, parsing the decoded
bytes as a compressed raster image of any readable channel layout. -/
def loadFromMemory (bytes : List Nat) : Except String DynImage :=
  match parseHeader bytes with
  | none => Except.error "The image format could not be determined"
  | some (tag, w, h, rest) =>
      match formatOfTag tag with
      | none => Except.error "unsupported color type"
      | some fmt => loadWithFormat fmt w h rest

/-! ### RGBA normalization

Modelled from the spec: `DynamicImage::pixels` yields every pixel as
8-bit-per-channel RGBA, whatever the native layout (grayscale replicated
into the three color channels, opaque alpha added where the source has no
alpha channel, palette entries looked up for indexed images). -/

/-- Grayscale pixel to RGBA. -/
def grayToRgba : List Nat → List Nat
  | [] => []
  | g :: rest => g :: g :: g :: 255 :: grayToRgba rest

/-- Grayscale-with-alpha pixel to RGBA. -/
def grayAToRgba : List Nat → List Nat
  | g :: a :: rest => g :: g :: g :: a :: grayAToRgba rest
  | [] => []
  | [_] => []

/-- RGB pixel to RGBA. -/
def rgbToRgba : List Nat → List Nat
  | r :: g :: b :: rest => r :: g :: b :: 255 :: rgbToRgba rest
  | [] => []
  | [_] => []
  | [_, _] => []

/-- Indexed pixel to RGBA via the palette. -/
def indexedToRgba (pal : List (Nat × Nat × Nat)) : List Nat → List Nat
  | [] => []
  | i :: rest =>
      (pal.getD i (0, 0, 0)).1 :: (pal.getD i (0, 0, 0)).2.1 ::
        (pal.getD i (0, 0, 0)).2.2 :: 255 :: indexedToRgba pal rest

/-- The flattened 8-bit RGBA buffer of a decoded raster image; this is what
`write_image` collects from `img.pixels()`. -/
def rgbaOfDyn (d : DynImage) : List Nat :=
  match d.format with
  | .gray => grayToRgba d.data
  | .grayA => grayAToRgba d.data
  | .rgb => rgbToRgba d.data
  | .rgba => d.data
  | .indexed => indexedToRgba d.palette d.data

/-! ### The OS clipboard and the facade

Modelled from the spec: the `arboard` OS clipboard is an external
collaborator.  `ClipboardEnv` packages the outcome of each OS interaction a
facade call can perform: whether `Clipboard::new()` (handle acquisition)
succeeds, what `get_text` / `get_image` return, whether `set_text` /
`set_image` fail, whether the temporary directory can be created, whether
saving the raster file fails, and whether reading the file back succeeds.
The facade bodies themselves are translated line by line from
`ClipboardManager` in `src/lib.rs`; a Rust `.unwrap()` on a failed step is
the `panicked` outcome. -/

/-- The `arboard::ImageData` record: dimensions plus a raw RGBA buffer. -/
structure ArboardImageData where
  width : Nat
  height : Nat
  bytes : List Nat
deriving DecidableEq

/-- The `image` crate's `RgbaImage` (`ImageBuffer<Rgba<u8>, Vec<u8>>`). -/
structure RgbaImage where
  width : Nat
  height : Nat
  data : List Nat
deriving DecidableEq

/-- `ImageBuffer::from_raw`: succeeds exactly when the buffer holds at least
`width * height * 4` bytes, keeping the whole buffer. -/
def imageBufferFromRaw (w h : Nat) (buf : List Nat) : Option RgbaImage :=
  if w * h * 4 ≤ buf.length then some ⟨w, h, buf⟩ else none

/-- Saving an `RgbaImage` writes the first `width * height` pixels into the
lossless container (modelled from the spec, see `serializeDyn`). -/
def savedBytes (img : RgbaImage) : List Nat :=
  serializeDyn ⟨img.width, img.height, PixelFormat.rgba, [], img.data.take (img.width * img.height * 4)⟩

/-- Outcome of the OS interactions available to one facade call. -/
structure ClipboardEnv where
  handleOk : Bool
  textSlot : Except String String
  imageSlot : Except String ArboardImageData
  setTextErr : Option String
  setImageErr : Option String
  tempdirErr : Option String
  saveErr : Option String
  fileReadOk : Bool
deriving DecidableEq

/-- Result of one facade call: `Ok`, `Err(String)`, or a Rust panic. -/
inductive CallResult (α : Type) where
  | ok (value : α)
  | err (msg : String)
  | panicked
deriving DecidableEq

/-- The shared manager state: `terminate_flag` and `running`
(the spec's `MonitorState`). -/
structure ClipboardManager where
  terminate_flag : Bool
  running : Bool
deriving DecidableEq

/-- `ClipboardManager::read_text`: `Clipboard::new().unwrap()` then
`get_text().map_err(|err| err.to_string())`. -/
def ClipboardManager.read_text (_self : ClipboardManager) (env : ClipboardEnv) :
    CallResult String :=
  if env.handleOk then
    match env.textSlot with
    | .ok t => .ok t
    | .error e => .err e
  else .panicked

/-- `ClipboardManager::write_text`: `Clipboard::new().unwrap()` then
`set_text(text).map_err(|err| err.to_string())`. -/
def ClipboardManager.write_text (_self : ClipboardManager) (env : ClipboardEnv)
    (text : String) : CallResult Unit × ClipboardEnv :=
  if env.handleOk then
    match env.setTextErr with
    | some e => (.err e, env)
    | none => (.ok (), { env with textSlot := .ok text })
  else (.panicked, env)

/-- `ClipboardManager::read_image`: `Clipboard::new().unwrap()`, `get_image`
mapped to a string error, temp dir creation mapped to a string error,
`ImageBuffer::from_raw(width.try_into().unwrap(), height.try_into().unwrap(),
bytes).unwrap()`, `save` mapped to a string error, `File::open(..).unwrap()`,
`read_to_end(..).unwrap()`, then `STANDARD_NO_PAD.encode(buffer)`. -/
def ClipboardManager.read_image (_self : ClipboardManager) (env : ClipboardEnv) :
    CallResult String :=
  if env.handleOk then
    match env.imageSlot with
    | .error e => .err e
    | .ok image =>
        match env.tempdirErr with
        | some e => .err e
        | none =>
            if image.width < 2 ^ 32 ∧ image.height < 2 ^ 32 then
              match imageBufferFromRaw image.width image.height image.bytes with
              | none => .panicked
              | some image2 =>
                  match env.saveErr with
                  | some e => .err e
                  | none =>
                      if env.fileReadOk then .ok (b64Encode (savedBytes image2))
                      else .panicked
            else .panicked
  else .panicked

/-- `ClipboardManager::read_image_binary`: the same pipeline as
`read_image`, duplicated in the source, stopping before base64. -/
def ClipboardManager.read_image_binary (_self : ClipboardManager) (env : ClipboardEnv) :
    CallResult (List Nat) :=
  if env.handleOk then
    match env.imageSlot with
    | .error e => .err e
    | .ok image =>
        match env.tempdirErr with
        | some e => .err e
        | none =>
            if image.width < 2 ^ 32 ∧ image.height < 2 ^ 32 then
              match imageBufferFromRaw image.width image.height image.bytes with
              | none => .panicked
              | some image2 =>
                  match env.saveErr with
                  | some e => .err e
                  | none =>
                      if env.fileReadOk then .ok (savedBytes image2)
                      else .panicked
            else .panicked
  else .panicked

/-- The decode front half of `write_image`: `STANDARD_NO_PAD.decode` mapped
to a string error, `image::load_from_memory` mapped to a string error, then
`img.pixels()` flattened into an RGBA byte buffer packaged with
`img.width()` and `img.height()` as `arboard::ImageData`. -/
def decodeToImageData (base64_image : String) : Except String ArboardImageData :=
  match b64Decode base64_image with
  | .error e => .error e
  | .ok decoded =>
      match loadFromMemory decoded with
      | .error e => .error e
      | .ok img => .ok ⟨img.width, img.height, rgbaOfDyn img⟩

/-- `ClipboardManager::write_image`: `Clipboard::new().unwrap()`, decode,
then `set_image(img_data).map_err(|err| err.to_string())`.  Returns the call
result together with the clipboard environment after the call. -/
def ClipboardManager.write_image (_self : ClipboardManager) (env : ClipboardEnv)
    (base64_image : String) : CallResult Unit × ClipboardEnv :=
  if env.handleOk then
    match decodeToImageData base64_image with
    | .error e => (.err e, env)
    | .ok img_data =>
        match env.setImageErr with
        | some e => (.err e, env)
        | none => (.ok (), { env with imageSlot := .ok img_data })
  else (.panicked, env)

/-! ### The clipboard change monitor

The handler callbacks are translated from `impl ClipboardHandler for
ClipboardMonitor` in `src/lib.rs`; the loop that drives them
(`Master::run` of the `clipboard_master` crate) is modelled from the spec:
one blocking detection cycle per iteration, each cycle reporting either a
change or a detection error, looping while the handler answers `Next`. -/

/-- `clipboard_master::CallbackResult`. -/
inductive CallbackResult where
  | next
  | stop
  | stopWithError (msg : String)
deriving DecidableEq

/-- One detection-cycle outcome delivered by the OS mechanism. -/
inductive MonitorEvent where
  | change
  | detectError (msg : String)
deriving DecidableEq

/-- An event emitted through the host notification sink (`emit_all`). -/
structure Notification where
  event : String
  payload : String
deriving DecidableEq

/-- `ClipboardMonitor::on_clipboard_change`: emit one update notification,
answer `Next`. -/
def ClipboardMonitor.on_clipboard_change : List Notification × CallbackResult :=
  ([⟨"plugin:clipboard://clipboard-monitor/update", "clipboard update"⟩],
    CallbackResult.next)

/-- `ClipboardMonitor::on_clipboard_error`: emit one error notification
carrying the error description, answer `Next`. -/
def ClipboardMonitor.on_clipboard_error (error : String) :
    List Notification × CallbackResult :=
  ([⟨"plugin:clipboard://clipboard-monitor/error", error⟩], CallbackResult.next)

/-- Dispatch one detection cycle to the matching handler callback. -/
def monitorHandle : MonitorEvent → List Notification × CallbackResult
  | MonitorEvent.change => ClipboardMonitor.on_clipboard_change
  | MonitorEvent.detectError e => ClipboardMonitor.on_clipboard_error e

/-- Modelled from the spec: `Master::run`, the monitor loop.  Processes
detection cycles in order, collecting the emitted notifications, and keeps
looping while the handler answers `Next`; the boolean records whether the
monitor is still active after the given cycles. -/
def masterRun : List MonitorEvent → List Notification × Bool
  | [] => ([], true)
  | ev :: rest =>
      match monitorHandle ev with
      | (ns, CallbackResult.next) =>
          ((ns ++ (masterRun rest).1), (masterRun rest).2)
      | (ns, _) => (ns, false)

/-- One detection cycle observed with the shared flag state in scope: the
handler neither reads nor writes `terminate_flag` / `running`, so the state
passes through unchanged. -/
def monitorCycle (st : ClipboardManager) (ev : MonitorEvent) :
    (List Notification × CallbackResult) × ClipboardManager :=
  (monitorHandle ev, st)

/-! ### Base64 lemmas -/

theorem b64CharIndex_b64Char : ∀ n < 64, b64CharIndex (b64Char n) = some n := by
  decide

theorem b64Char_ne_pad (n : Nat) : b64Char n ≠ '=' := by
  rcases Nat.lt_or_ge n 64 with h | h
  · exact (by decide : ∀ m < 64, b64Char m ≠ '=') n h
  · rw [b64Char, List.getD_eq_default _ _ (le_of_eq_of_le (by decide) h)]
    decide

theorem b64Encode_no_pad (bytes : List Nat) : '=' ∉ (b64Encode bytes).data := by
  intro hmem
  rw [b64Encode] at hmem
  rcases List.mem_map.mp hmem with ⟨n, _, hn⟩
  exact b64Char_ne_pad n hn

theorem sextetsOfChars_of_mem_bad (l : List Char) (c : Char)
    (hc : c ∈ l) (hbad : b64CharIndex c = none) : sextetsOfChars l = none := by
  induction l with
  | nil => cases hc
  | cons x rest ih =>
      rcases List.mem_cons.mp hc with rfl | htail
      · rw [sextetsOfChars, hbad]
      · rw [sextetsOfChars, ih htail]
        cases b64CharIndex x <;> rfl

theorem b64Decode_pad_mem (s : String) (hmem : '=' ∈ s.data) :
    b64Decode s = .error "Invalid byte" := by
  rw [b64Decode, sextetsOfChars_of_mem_bad s.data '=' hmem (by decide)]

theorem b64EncodeSextets_lt (bytes : List Nat) (hb : ∀ b ∈ bytes, b < 256) :
    ∀ x ∈ b64EncodeSextets bytes, x < 64 := by
  induction bytes using b64EncodeSextets.induct with
  | case1 => intro x hx; simp [b64EncodeSextets] at hx
  | case2 a =>
      have ha := hb a (by simp)
      intro x hx
      simp only [b64EncodeSextets, List.mem_cons, List.not_mem_nil, or_false] at hx
      rcases hx with rfl | rfl <;> omega
  | case3 a b =>
      have ha := hb a (by simp)
      have hbb := hb b (by simp)
      intro x hx
      simp only [b64EncodeSextets, List.mem_cons, List.not_mem_nil, or_false] at hx
      rcases hx with rfl | rfl | rfl <;> omega
  | case4 a b c rest ih =>
      have ha := hb a (by simp)
      have hbb := hb b (by simp)
      have hc := hb c (by simp)
      have hrest : ∀ y ∈ rest, y < 256 := by
        intro y hy; exact hb y (by simp [hy])
      intro x hx
      simp only [b64EncodeSextets, List.mem_cons] at hx
      rcases hx with rfl | rfl | rfl | rfl | hx
      · omega
      · omega
      · omega
      · omega
      · exact ih hrest x hx

theorem sextetsOfChars_map_b64Char (sx : List Nat) (h : ∀ x ∈ sx, x < 64) :
    sextetsOfChars (sx.map b64Char) = some sx := by
  induction sx with
  | nil => rfl
  | cons x rest ih =>
      have hx := h x (by simp)
      have hrest : ∀ y ∈ rest, y < 64 := fun y hy => h y (by simp [hy])
      rw [List.map_cons, sextetsOfChars, b64CharIndex_b64Char x hx, ih hrest]

theorem b64DecodeBytes_b64EncodeSextets (bytes : List Nat)
    (hb : ∀ b ∈ bytes, b < 256) :
    b64DecodeBytes (b64EncodeSextets bytes) = .ok bytes := by
  induction bytes using b64EncodeSextets.induct with
  | case1 => simp only [b64EncodeSextets, b64DecodeBytes]
  | case2 a =>
      have ha := hb a (by simp)
      have h1 : a % 4 * 16 % 16 = 0 := by omega
      have h2 : a / 4 * 4 + a % 4 * 16 / 16 = a := by omega
      simp only [b64EncodeSextets, b64DecodeBytes, h1, if_true, h2]
  | case3 a b =>
      have ha := hb a (by simp)
      have hbb := hb b (by simp)
      have h1 : b % 16 * 4 % 4 = 0 := by omega
      have h2 : a / 4 * 4 + (a % 4 * 16 + b / 16) / 16 = a := by omega
      have h3 : (a % 4 * 16 + b / 16) % 16 * 16 + b % 16 * 4 / 4 = b := by omega
      simp only [b64EncodeSextets, b64DecodeBytes, h1, if_true, h2, h3]
  | case4 a b c rest ih =>
      have ha := hb a (by simp)
      have hbb := hb b (by simp)
      have hc := hb c (by simp)
      have hrest : ∀ y ∈ rest, y < 256 := by
        intro y hy; exact hb y (by simp [hy])
      have h2 : a / 4 * 4 + (a % 4 * 16 + b / 16) / 16 = a := by omega
      have h3 : (a % 4 * 16 + b / 16) % 16 * 16 + (b % 16 * 4 + c / 64) / 4 = b := by omega
      have h4 : (b % 16 * 4 + c / 64) % 4 * 64 + c % 64 = c := by omega
      simp only [b64EncodeSextets, b64DecodeBytes, ih hrest, h2, h3, h4]

theorem b64_roundtrip (bytes : List Nat) (hb : ∀ b ∈ bytes, b < 256) :
    b64Decode (b64Encode bytes) = .ok bytes := by
  rw [b64Encode, b64Decode]
  have hdata : (String.mk ((b64EncodeSextets bytes).map b64Char)).data
      = (b64EncodeSextets bytes).map b64Char := rfl
  rw [hdata, sextetsOfChars_map_b64Char _ (b64EncodeSextets_lt bytes hb)]
  exact b64DecodeBytes_b64EncodeSextets bytes hb

/-! ### Container lemmas -/

theorem beToNat4_natToBE4 (n : Nat) (h : n < 2 ^ 32) :
    beToNat4 (n / 2 ^ 24 % 256) (n / 2 ^ 16 % 256) (n / 2 ^ 8 % 256) (n % 256) = n := by
  rw [beToNat4]
  omega

theorem formatOfTag_formatTag (fmt : PixelFormat) :
    formatOfTag (formatTag fmt) = some fmt := by
  cases fmt <;> rfl

theorem parsePalette_serializePalette (pal : List (Nat × Nat × Nat)) (rest : List Nat) :
    parsePalette pal.length (serializePalette pal ++ rest) = some (pal, rest) := by
  induction pal with
  | nil => rfl
  | cons p rest2 ih =>
      obtain ⟨r, g, b⟩ := p
      rw [List.length_cons, serializePalette, List.cons_append, List.cons_append,
        List.cons_append, parsePalette, ih]

theorem serializePalette_lt (pal : List (Nat × Nat × Nat))
    (hpent : ∀ p ∈ pal, p.1 < 256 ∧ p.2.1 < 256 ∧ p.2.2 < 256) :
    ∀ b ∈ serializePalette pal, b < 256 := by
  induction pal with
  | nil => intro b hb; simp [serializePalette] at hb
  | cons p prest ih =>
      obtain ⟨r, g, bb⟩ := p
      have hp := hpent (r, g, bb) (by simp)
      intro b hb
      simp only [serializePalette, List.mem_cons] at hb
      rcases hb with rfl | rfl | rfl | hb
      · exact hp.1
      · exact hp.2.1
      · exact hp.2.2
      · exact ih (fun q hq => hpent q (by simp [hq])) b hb

theorem serializeDyn_lt (d : DynImage) (h : d.wf) :
    ∀ b ∈ serializeDyn d, b < 256 := by
  obtain ⟨hw, hh, hlen, hdata, hpal⟩ := h
  intro b hb
  rw [serializeDyn] at hb
  have htag : formatTag d.format < 256 := by cases d.format <;> simp [formatTag]
  simp only [List.mem_cons, List.mem_append] at hb
  rcases hb with rfl | rfl | rfl | rfl | rfl | rfl | rfl | rfl | rfl | hb
  · omega
  · omega
  · omega
  · omega
  · omega
  · omega
  · omega
  · omega
  · exact htag
  rcases hb with hb | hb | hb | hb
  · simp only [natToBE4, List.mem_cons, List.not_mem_nil, or_false] at hb
    rcases hb with rfl | rfl | rfl | rfl <;> omega
  · simp only [natToBE4, List.mem_cons, List.not_mem_nil, or_false] at hb
    rcases hb with rfl | rfl | rfl | rfl <;> omega
  · rw [palettePart] at hb
    by_cases hfmt : d.format = PixelFormat.indexed
    · rw [if_pos hfmt] at hb
      rw [hfmt] at hpal
      obtain ⟨hplen, hpent, _⟩ := hpal
      simp only [List.mem_cons] at hb
      rcases hb with rfl | rfl | hb
      · omega
      · omega
      · exact serializePalette_lt d.palette hpent b hb
    · rw [if_neg hfmt] at hb
      simp at hb
  · exact hdata b hb

theorem loadFromMemory_serializeDyn (d : DynImage) (h : d.wf) :
    loadFromMemory (serializeDyn d) = Except.ok d := by
  obtain ⟨w, hgt, fmt, pal, data⟩ := d
  obtain ⟨hw, hh, hlen, hdata, hpal⟩ := h
  simp only at hw hh hlen hdata hpal
  have hhead : parseHeader (serializeDyn ⟨w, hgt, fmt, pal, data⟩) =
      some (formatTag fmt, w, hgt, palettePart ⟨w, hgt, fmt, pal, data⟩ ++ data) := by
    rw [serializeDyn]
    simp only [natToBE4, List.cons_append, List.nil_append, parseHeader]
    rw [beToNat4_natToBE4 w hw, beToNat4_natToBE4 hgt hh]
  simp only [loadFromMemory, hhead, formatOfTag_formatTag]
  by_cases hfmt : fmt = PixelFormat.indexed
  · subst hfmt
    obtain ⟨hplen, hpent, hidx⟩ : pal.length < 2 ^ 16 ∧
        (∀ p ∈ pal, p.1 < 256 ∧ p.2.1 < 256 ∧ p.2.2 < 256) ∧
          ∀ i ∈ data, i < pal.length := hpal
    rw [palettePart]
    simp only [reduceIte, List.cons_append, loadWithFormat]
    have hcnt : pal.length / 256 % 256 * 256 + pal.length % 256 = pal.length := by
      omega
    rw [hcnt]
    simp only [parsePalette_serializePalette]
    have hc : data.length = w * hgt ∧ ∀ i ∈ data, i < pal.length := by
      refine ⟨?_, hidx⟩
      simpa [PixelFormat.channels] using hlen
    rw [if_pos hc]
  · have hpal2 : pal = [] := by
      cases fmt <;> simp_all [paletteOk]
    subst hpal2
    rw [palettePart]
    simp only [if_neg hfmt, List.nil_append]
    cases fmt <;> simp_all [PixelFormat.channels, loadWithFormat]

theorem grayToRgba_length (l : List Nat) : (grayToRgba l).length = 4 * l.length := by
  induction l with
  | nil => rfl
  | cons g rest ih => simp [grayToRgba, ih]; omega

theorem grayAToRgba_length (l : List Nat) :
    (grayAToRgba l).length = 4 * (l.length / 2) := by
  induction l using grayAToRgba.induct with
  | case1 g a rest ih => simp [grayAToRgba, ih]; omega
  | case2 => simp [grayAToRgba]
  | case3 => simp [grayAToRgba]

theorem rgbToRgba_length (l : List Nat) :
    (rgbToRgba l).length = 4 * (l.length / 3) := by
  induction l using rgbToRgba.induct with
  | case1 r g b rest ih => simp [rgbToRgba, ih]; omega
  | case2 => simp [rgbToRgba]
  | case3 => simp [rgbToRgba]
  | case4 => simp [rgbToRgba]

theorem indexedToRgba_length (pal : List (Nat × Nat × Nat)) (l : List Nat) :
    (indexedToRgba pal l).length = 4 * l.length := by
  induction l with
  | nil => rfl
  | cons i rest ih => simp [indexedToRgba, ih]; omega

theorem rgbaOfDyn_length (d : DynImage)
    (hlen : d.data.length = d.width * d.height * d.format.channels) :
    (rgbaOfDyn d).length = d.width * d.height * 4 := by
  obtain ⟨w, hgt, fmt, pal, data⟩ := d
  simp only at hlen
  cases fmt <;>
    simp_all [rgbaOfDyn, PixelFormat.channels, grayToRgba_length, grayAToRgba_length,
      rgbToRgba_length, indexedToRgba_length] <;>
    omega

/-! ### Facade lemmas -/

theorem decodeToImageData_of (s : String) (decoded : List Nat) (d : DynImage)
    (h1 : b64Decode s = Except.ok decoded)
    (h2 : loadFromMemory decoded = Except.ok d) :
    decodeToImageData s = Except.ok ⟨d.width, d.height, rgbaOfDyn d⟩ := by
  simp only [decodeToImageData, h1, h2]

theorem decodeToImageData_serializeDyn (d : DynImage) (hwf : d.wf) :
    decodeToImageData (b64Encode (serializeDyn d)) =
      Except.ok ⟨d.width, d.height, rgbaOfDyn d⟩ :=
  decodeToImageData_of _ _ _
    (b64_roundtrip (serializeDyn d) (serializeDyn_lt d hwf))
    (loadFromMemory_serializeDyn d hwf)

theorem write_image_err (m : ClipboardManager) (env : ClipboardEnv) (s e : String)
    (hhandle : env.handleOk = true)
    (hbad : decodeToImageData s = Except.error e) :
    ClipboardManager.write_image m env s = (CallResult.err e, env) := by
  simp only [ClipboardManager.write_image, hhandle, hbad, if_true]

theorem read_image_ok_shape (m : ClipboardManager) (env : ClipboardEnv) (s : String)
    (h : ClipboardManager.read_image m env = CallResult.ok s) :
    ∃ image2, s = b64Encode (savedBytes image2) := by
  rw [ClipboardManager.read_image] at h
  split at h
  · split at h
    · cases h
    · split at h
      · cases h
      · split at h
        · split at h
          · cases h
          · split at h
            · cases h
            · split at h
              · cases h
                exact ⟨_, rfl⟩
              · cases h
        · cases h
  · cases h

theorem loadWithFormat_ok_shape (fmt : PixelFormat) (w hgt : Nat) (rest : List Nat)
    (d : DynImage) (h : loadWithFormat fmt w hgt rest = Except.ok d) :
    d.data.length = d.width * d.height * d.format.channels := by
  cases fmt
  case indexed =>
    simp only [loadWithFormat] at h
    split at h
    · split at h
      · cases h
      · split at h
        · rename_i hcond
          cases h
          simpa [PixelFormat.channels] using hcond.1
        · cases h
    · cases h
  all_goals
    simp only [loadWithFormat] at h
    split at h
    · rename_i hcond
      cases h
      exact hcond
    · cases h

theorem loadFromMemory_ok_shape (bytes : List Nat) (d : DynImage)
    (h : loadFromMemory bytes = Except.ok d) :
    d.data.length = d.width * d.height * d.format.channels := by
  rw [loadFromMemory] at h
  split at h
  · cases h
  · split at h
    · cases h
    · exact loadWithFormat_ok_shape _ _ _ _ _ h

/-! ### Claims -/

/-- Claim C1: for every RawImage whose pixel buffer length equals
`width * height * 4` (with 32-bit dimensions and byte-sized samples, and the
per-call OS interactions succeeding), `read_image` encodes it to base64 text,
decoding that text yields an image with identical width, height and pixel
bytes, and `write_image` pushes exactly that image to the clipboard. -/
theorem image_roundtrip (m : ClipboardManager) (env : ClipboardEnv)
    (img : ArboardImageData)
    (hhandle : env.handleOk = true) (hslot : env.imageSlot = Except.ok img)
    (htmp : env.tempdirErr = none) (hsave : env.saveErr = none)
    (hread : env.fileReadOk = true) (hset : env.setImageErr = none)
    (hw : img.width < 2 ^ 32) (hh : img.height < 2 ^ 32)
    (hlen : img.bytes.length = img.width * img.height * 4)
    (hbytes : ∀ b ∈ img.bytes, b < 256) :
    ClipboardManager.read_image m env =
      CallResult.ok (b64Encode (serializeDyn
        ⟨img.width, img.height, PixelFormat.rgba, [], img.bytes⟩)) ∧
    decodeToImageData (b64Encode (serializeDyn
        ⟨img.width, img.height, PixelFormat.rgba, [], img.bytes⟩)) =
      Except.ok img ∧
    ClipboardManager.write_image m env (b64Encode (serializeDyn
        ⟨img.width, img.height, PixelFormat.rgba, [], img.bytes⟩)) =
      (CallResult.ok (), { env with imageSlot := Except.ok img }) := by
  have hwf : DynImage.wf ⟨img.width, img.height, PixelFormat.rgba, [], img.bytes⟩ :=
    ⟨hw, hh, hlen, hbytes, rfl⟩
  have htake : img.bytes.take (img.width * img.height * 4) = img.bytes := by
    rw [← hlen, List.take_length]
  have hsaved : savedBytes ⟨img.width, img.height, img.bytes⟩ =
      serializeDyn ⟨img.width, img.height, PixelFormat.rgba, [], img.bytes⟩ := by
    simp only [savedBytes, htake]
  have hfrom : imageBufferFromRaw img.width img.height img.bytes =
      some ⟨img.width, img.height, img.bytes⟩ := by
    rw [imageBufferFromRaw, if_pos (le_of_eq hlen.symm)]
  have hdec : decodeToImageData (b64Encode (serializeDyn
      ⟨img.width, img.height, PixelFormat.rgba, [], img.bytes⟩)) = Except.ok img :=
    decodeToImageData_serializeDyn _ hwf
  refine ⟨?_, hdec, ?_⟩
  · simp only [ClipboardManager.read_image, hhandle, if_true, hslot, htmp, hread]
    rw [if_pos ⟨hw, hh⟩]
    simp only [hfrom, hsave, if_true, hsaved]
  · simp only [ClipboardManager.write_image, hhandle, if_true, hdec, hset]

/-- Witness for C1 at a concrete 1×2 RGBA image. -/
theorem image_roundtrip_witness :
    ClipboardManager.read_image ⟨false, false⟩
        ⟨true, Except.error "no text", Except.ok ⟨1, 2, [1, 2, 3, 4, 5, 6, 7, 8]⟩,
          none, none, none, none, true⟩ =
      CallResult.ok (b64Encode (serializeDyn
        ⟨1, 2, PixelFormat.rgba, [], [1, 2, 3, 4, 5, 6, 7, 8]⟩)) ∧
    decodeToImageData (b64Encode (serializeDyn
        ⟨1, 2, PixelFormat.rgba, [], [1, 2, 3, 4, 5, 6, 7, 8]⟩)) =
      Except.ok ⟨1, 2, [1, 2, 3, 4, 5, 6, 7, 8]⟩ ∧
    ClipboardManager.write_image ⟨false, false⟩
        ⟨true, Except.error "no text", Except.ok ⟨1, 2, [1, 2, 3, 4, 5, 6, 7, 8]⟩,
          none, none, none, none, true⟩
        (b64Encode (serializeDyn
          ⟨1, 2, PixelFormat.rgba, [], [1, 2, 3, 4, 5, 6, 7, 8]⟩)) =
      (CallResult.ok (),
        { (⟨true, Except.error "no text", Except.ok ⟨1, 2, [1, 2, 3, 4, 5, 6, 7, 8]⟩,
            none, none, none, none, true⟩ : ClipboardEnv) with
            imageSlot := Except.ok ⟨1, 2, [1, 2, 3, 4, 5, 6, 7, 8]⟩ }) :=
  image_roundtrip ⟨false, false⟩ _ ⟨1, 2, [1, 2, 3, 4, 5, 6, 7, 8]⟩
    (by decide) (by decide) (by decide) (by decide) (by decide) (by decide)
    (by decide) (by decide) (by decide) (by decide)

/-- Claim C2: the spec requires the encode pipeline to fail with a codec
error, without crashing, on a pixel buffer whose length differs from
`width * height * 4`.  The code instead panics (`ImageBuffer::from_raw(..)
.unwrap()`) on an undersized buffer, and silently accepts an oversized one:
at a 1×1 image with 3 bytes both `read_image` and `read_image_binary`
panic, and at a 1×1 image with 5 bytes `read_image_binary` succeeds. -/
theorem encode_dimension_mismatch_panics :
    ClipboardManager.read_image ⟨false, false⟩
        ⟨true, Except.error "no text", Except.ok ⟨1, 1, [0, 0, 0]⟩,
          none, none, none, none, true⟩ = CallResult.panicked ∧
    ClipboardManager.read_image_binary ⟨false, false⟩
        ⟨true, Except.error "no text", Except.ok ⟨1, 1, [0, 0, 0]⟩,
          none, none, none, none, true⟩ = CallResult.panicked ∧
    ∃ b, ClipboardManager.read_image_binary ⟨false, false⟩
        ⟨true, Except.error "no text", Except.ok ⟨1, 1, [0, 0, 0, 0, 0]⟩,
          none, none, none, none, true⟩ = CallResult.ok b :=
  ⟨by decide, by decide, ⟨_, rfl⟩⟩

/-- Claim C3: the spec requires every failure, including clipboard handle
acquisition failure, to be surfaced as an `Err` string, never a panic.  The
code instead calls `Clipboard::new().unwrap()` in all five facade
operations: when handle acquisition fails, every operation panics. -/
theorem handle_failure_panics :
    ClipboardManager.read_text ⟨false, false⟩
        ⟨false, Except.ok "text", Except.ok ⟨1, 1, [0, 0, 0, 0]⟩,
          none, none, none, none, true⟩ = CallResult.panicked ∧
    (ClipboardManager.write_text ⟨false, false⟩
        ⟨false, Except.ok "text", Except.ok ⟨1, 1, [0, 0, 0, 0]⟩,
          none, none, none, none, true⟩ "hello").1 = CallResult.panicked ∧
    ClipboardManager.read_image ⟨false, false⟩
        ⟨false, Except.ok "text", Except.ok ⟨1, 1, [0, 0, 0, 0]⟩,
          none, none, none, none, true⟩ = CallResult.panicked ∧
    ClipboardManager.read_image_binary ⟨false, false⟩
        ⟨false, Except.ok "text", Except.ok ⟨1, 1, [0, 0, 0, 0]⟩,
          none, none, none, none, true⟩ = CallResult.panicked ∧
    (ClipboardManager.write_image ⟨false, false⟩
        ⟨false, Except.ok "text", Except.ok ⟨1, 1, [0, 0, 0, 0]⟩,
          none, none, none, none, true⟩ "QUJD").1 = CallResult.panicked := by
  decide

/-- Claim C4: when the handle is acquired and the input string is not valid
unpadded base64, or its decoded bytes are not a parseable image — exactly
the cases where the decode front half fails — `write_image` returns that
codec error as `Err` and leaves the clipboard environment unchanged. -/
theorem write_image_invalid_input_no_mutation (m : ClipboardManager)
    (env : ClipboardEnv) (s e : String)
    (hhandle : env.handleOk = true)
    (hbad : decodeToImageData s = Except.error e) :
    (ClipboardManager.write_image m env s).1 = CallResult.err e ∧
    (ClipboardManager.write_image m env s).2 = env := by
  rw [write_image_err m env s e hhandle hbad]
  exact ⟨rfl, rfl⟩

/-- Witness for C4: `"="` is rejected by the base64 decoder, `"AAAA"`
decodes to bytes that are not a parseable image; neither mutates the
clipboard. -/
theorem write_image_invalid_input_no_mutation_witness :
    ((ClipboardManager.write_image ⟨false, false⟩
        ⟨true, Except.error "no text", Except.error "no image",
          none, none, none, none, true⟩ "=").1 = CallResult.err "Invalid byte" ∧
      (ClipboardManager.write_image ⟨false, false⟩
        ⟨true, Except.error "no text", Except.error "no image",
          none, none, none, none, true⟩ "=").2 =
        ⟨true, Except.error "no text", Except.error "no image",
          none, none, none, none, true⟩) ∧
    ((ClipboardManager.write_image ⟨false, false⟩
        ⟨true, Except.error "no text", Except.error "no image",
          none, none, none, none, true⟩ "AAAA").1 =
        CallResult.err "The image format could not be determined" ∧
      (ClipboardManager.write_image ⟨false, false⟩
        ⟨true, Except.error "no text", Except.error "no image",
          none, none, none, none, true⟩ "AAAA").2 =
        ⟨true, Except.error "no text", Except.error "no image",
          none, none, none, none, true⟩) :=
  ⟨write_image_invalid_input_no_mutation _ _ _ _ (by decide) (by decide),
    write_image_invalid_input_no_mutation _ _ _ _ (by decide) (by decide)⟩

/-- Claim C5: the monitor never terminates its loop from inside: every
detection error emits exactly one error notification and the loop continues,
every detected change emits exactly one update notification and the loop
continues; over any cycle sequence the monitor stays active and emits one
notification per cycle, and an error cycle followed by a success cycle
yields exactly one error notification then one update notification. -/
theorem monitor_resilience :
    (∀ e, ClipboardMonitor.on_clipboard_error e =
      ([⟨"plugin:clipboard://clipboard-monitor/error", e⟩], CallbackResult.next)) ∧
    (ClipboardMonitor.on_clipboard_change =
      ([⟨"plugin:clipboard://clipboard-monitor/update", "clipboard update"⟩],
        CallbackResult.next)) ∧
    (∀ evs, (masterRun evs).2 = true ∧ (masterRun evs).1.length = evs.length) ∧
    (∀ e evs, masterRun (MonitorEvent.detectError e :: MonitorEvent.change :: evs) =
      (⟨"plugin:clipboard://clipboard-monitor/error", e⟩ ::
        ⟨"plugin:clipboard://clipboard-monitor/update", "clipboard update"⟩ ::
          (masterRun evs).1, (masterRun evs).2)) := by
  refine ⟨fun e => rfl, rfl, ?_, ?_⟩
  · intro evs
    induction evs with
    | nil => exact ⟨rfl, rfl⟩
    | cons ev rest ih =>
        cases ev <;>
          refine ⟨?_, ?_⟩ <;>
          simp [masterRun, monitorHandle, ClipboardMonitor.on_clipboard_change,
            ClipboardMonitor.on_clipboard_error, ih.1, ih.2]
  · intro e evs
    simp [masterRun, monitorHandle, ClipboardMonitor.on_clipboard_change,
      ClipboardMonitor.on_clipboard_error]

/-- Claim C6: whenever the input of `write_image` base64-decodes and parses
as a raster image of any readable channel layout, the decode front half
succeeds and returns that image's width and height with the pixel buffer
normalized to 8-bit RGBA; in particular every well-formed image of every
layout (grayscale, gray+alpha, RGB, RGBA, indexed), once serialized,
decodes this way. -/
theorem decode_normalizes_to_rgba :
    (∀ s decoded d, b64Decode s = Except.ok decoded →
      loadFromMemory decoded = Except.ok d →
      decodeToImageData s = Except.ok ⟨d.width, d.height, rgbaOfDyn d⟩) ∧
    ∀ d : DynImage, d.wf →
      decodeToImageData (b64Encode (serializeDyn d)) =
        Except.ok ⟨d.width, d.height, rgbaOfDyn d⟩ :=
  ⟨fun s decoded d h1 h2 => decodeToImageData_of s decoded d h1 h2,
    fun d hwf => decodeToImageData_serializeDyn d hwf⟩

/-- Witness for C6 at a concrete 1×1 indexed image: the palette entry is
expanded to an opaque RGBA pixel. -/
theorem decode_normalizes_to_rgba_witness :
    decodeToImageData (b64Encode (serializeDyn
        ⟨1, 1, PixelFormat.indexed, [(9, 8, 7)], [0]⟩)) =
      Except.ok ⟨1, 1, [9, 8, 7, 255]⟩ := by
  exact decode_normalizes_to_rgba.2 ⟨1, 1, PixelFormat.indexed, [(9, 8, 7)], [0]⟩
    (by decide)

/-- Claim C7: `read_image` and `read_image_binary` run the identical encode
pipeline, `read_image` additionally base64-encoding the result: in every
environment, `read_image` returns exactly the base64 encoding of the bytes
`read_image_binary` returns, and the two fail (or panic) under exactly the
same conditions. -/
theorem read_image_refines_binary (m : ClipboardManager) (env : ClipboardEnv) :
    ClipboardManager.read_image m env =
      match ClipboardManager.read_image_binary m env with
      | CallResult.ok b => CallResult.ok (b64Encode b)
      | CallResult.err e => CallResult.err e
      | CallResult.panicked => CallResult.panicked := by
  by_cases henv : env.handleOk = true
  · simp only [ClipboardManager.read_image, ClipboardManager.read_image_binary, henv,
      if_true]
    cases hslot : env.imageSlot with
    | error e => rfl
    | ok image =>
        cases htd : env.tempdirErr with
        | some e => rfl
        | none =>
            by_cases hdim : image.width < 2 ^ 32 ∧ image.height < 2 ^ 32
            · simp only [if_pos hdim]
              cases imageBufferFromRaw image.width image.height image.bytes with
              | none => rfl
              | some image2 =>
                  cases env.saveErr with
                  | some e => rfl
                  | none =>
                      cases env.fileReadOk with
                      | false => rfl
                      | true => rfl
            · simp only [if_neg hdim]
  · have henv2 : env.handleOk = false := by simpa using henv
    simp only [ClipboardManager.read_image, ClipboardManager.read_image_binary, henv2,
      Bool.false_eq_true, if_false]

/-- Claim C8: all base64 at the interface uses the standard alphabet with no
padding: a successful `read_image` never contains a `=` character, and
`write_image` rejects any input containing `=` (the no-pad decoder errors on
it), so well-formed input is judged against the unpadded standard
alphabet. -/
theorem base64_standard_no_pad :
    (∀ m env s, ClipboardManager.read_image m env = CallResult.ok s →
      '=' ∉ s.data) ∧
    ∀ (m : ClipboardManager) (env : ClipboardEnv) (s : String),
      env.handleOk = true → '=' ∈ s.data →
      (ClipboardManager.write_image m env s).1 = CallResult.err "Invalid byte" := by
  constructor
  · intro m env s h
    obtain ⟨image2, rfl⟩ := read_image_ok_shape m env s h
    exact b64Encode_no_pad _
  · intro m env s hh hpad
    have hdec : decodeToImageData s = Except.error "Invalid byte" := by
      rw [decodeToImageData, b64Decode_pad_mem s hpad]
    rw [write_image_err m env s _ hh hdec]

/-- Witness for C8: a concrete successful `read_image` output has no
padding, and the padded input `"QQ="` is rejected by `write_image`. -/
theorem base64_standard_no_pad_witness :
    '=' ∉ (b64Encode (serializeDyn
      ⟨1, 1, PixelFormat.rgba, [], [0, 0, 0, 0]⟩)).data ∧
    (ClipboardManager.write_image ⟨false, false⟩
        ⟨true, Except.error "no text", Except.error "no image",
          none, none, none, none, true⟩ "QQ=").1 = CallResult.err "Invalid byte" :=
  ⟨base64_standard_no_pad.1 ⟨false, false⟩
      ⟨true, Except.error "no text", Except.ok ⟨1, 1, [0, 0, 0, 0]⟩,
        none, none, none, none, true⟩ _ (by decide),
    base64_standard_no_pad.2 ⟨false, false⟩
      ⟨true, Except.error "no text", Except.error "no image",
        none, none, none, none, true⟩ "QQ=" (by decide) (by decide)⟩

/-- Counterexample to claim C9: with `terminate_flag` (the spec's
`terminate_requested`) set, the next detection cycle does not end the
background activity — the handler answers `Next` and the loop continues. -/
theorem terminate_flag_counterexample :
    (⟨true, true⟩ : ClipboardManager).terminate_flag = true ∧
    (monitorCycle ⟨true, true⟩ MonitorEvent.change).1.2 = CallbackResult.next ∧
    (masterRun [MonitorEvent.change]).2 = true := by
  exact ⟨rfl, rfl, rfl⟩

/-- Claim C9 as amended: `terminate_flag` is never consulted by the monitor:
whatever the flag state, every detection cycle answers `Next` (so the loop
continues) and leaves the shared state unchanged; the background activity
ends only with the process. -/
theorem terminate_flag_ignored (st : ClipboardManager) (ev : MonitorEvent) :
    (monitorCycle st ev).1.2 = CallbackResult.next ∧ (monitorCycle st ev).2 = st := by
  cases ev <;> exact ⟨rfl, rfl⟩

/-- Claim C10: every image successfully decoded by `write_image` hands the
OS clipboard a pixel buffer satisfying the RawImage invariant: its length is
the reported width times the reported height times 4. -/
theorem decoded_pixels_length (s : String) (img : ArboardImageData)
    (h : decodeToImageData s = Except.ok img) :
    img.bytes.length = img.width * img.height * 4 := by
  rw [decodeToImageData] at h
  split at h
  · cases h
  · rename_i decoded hdecEq
    split at h
    · cases h
    · rename_i d hload
      cases h
      exact rgbaOfDyn_length d (loadFromMemory_ok_shape decoded d hload)

/-- Witness for C10 at a concrete 2×1 grayscale image: the decoded buffer
has length `2 * 1 * 4`. -/
theorem decoded_pixels_length_witness :
    (⟨2, 1, [3, 3, 3, 255, 4, 4, 4, 255]⟩ : ArboardImageData).bytes.length =
      2 * 1 * 4 :=
  decoded_pixels_length
    (b64Encode (serializeDyn ⟨2, 1, PixelFormat.gray, [], [3, 4]⟩)) _ (by decide)

end TauriClipboard
